import Mathlib

/-!
Verification of the HD-wallet core in `bitcoinutils/hdwallet.py` (class `HDW`).

The Python code is shallowly embedded over `List Nat` byte sequences (each
entry a byte value 0..255) and `String`/`List Char` for Python `str` values.
The standard-library primitives the code calls (`hashlib.sha512`, `hmac.new`,
`hashlib.pbkdf2_hmac`, `binascii.b2a_hex`, `binascii.unhexlify`, UTF-8
encoding) are implemented here in full as executable functions; the SHA-512
round constants are obtained, as in the standard, from the fractional parts
of the square/cube roots of the first primes.  `unicodedata.normalize("NFKD", -)`
is Unicode tables far outside the repository, so it is kept as an explicit
function parameter `nfkd`; every theorem about it quantifies over all such
functions.  The `ecdsa.SigningKey` reconstruction at the end of
`from_xprivate_key` is elliptic-curve library code that cannot raise on the
inputs reachable there (the key bytes are ASCII hex characters, hence a
scalar in `[1, n)`), and no claim concerns the signing-key object itself, so
the embedding stops at the stored byte fields.

Stateful methods are embedded as functions from the pre-state to a pair of
an `Except` outcome and a post-state, assigning fields in the source's
order, so that what a raised exception leaves behind is represented exactly.
-/

set_option maxRecDepth 10000

deriving instance DecidableEq for Except

/-! ## Byte-sequence utilities -/

/-- Big-endian interpretation of a byte sequence as a natural number
(`int.from_bytes(b, "big")`, and `struct.unpack(">L", b)` for 4 bytes). -/
def beBytesToNat (bs : List Nat) : Nat :=
  bs.foldl (fun acc b => acc * 256 + b) 0

/-- The `k`-byte big-endian encoding of `n`. -/
def natToBytesBE (k n : Nat) : List Nat :=
  (List.range k).map (fun i => n / 2 ^ (8 * (k - 1 - i)) % 256)

/-- The 8-byte big-endian encoding of a 64-bit word. -/
def word64ToBytesBE (w : Nat) : List Nat :=
  [w / 2 ^ 56 % 256, w / 2 ^ 48 % 256, w / 2 ^ 40 % 256, w / 2 ^ 32 % 256,
   w / 2 ^ 24 % 256, w / 2 ^ 16 % 256, w / 2 ^ 8 % 256, w % 256]

/-- The ASCII code of the lowercase hex digit for `n < 16`. -/
def hexDigitChar (n : Nat) : Nat := if n < 10 then 48 + n else 87 + n

/-- `binascii.b2a_hex`: the lowercase hex encoding of a byte sequence,
itself a byte sequence of ASCII codes, twice as long as the input. -/
def b2aHex (bs : List Nat) : List Nat :=
  (bs.map (fun b => [hexDigitChar (b / 16 % 16), hexDigitChar (b % 16)])).flatten

/-- UTF-8 encoding of one Unicode scalar value. -/
def utf8EncodeChar (c : Char) : List Nat :=
  let n := c.toNat
  if n < 128 then [n]
  else if n < 2048 then [192 + n / 64, 128 + n % 64]
  else if n < 65536 then [224 + n / 4096, 128 + n / 64 % 64, 128 + n % 64]
  else [240 + n / 262144, 128 + n / 4096 % 64, 128 + n / 64 % 64, 128 + n % 64]

/-- `str.encode("utf-8")`: UTF-8 encoding of a string as a byte sequence. -/
def utf8Encode (s : String) : List Nat := (s.data.map utf8EncodeChar).flatten

/-! ## SHA-512 (`hashlib.sha512`) -/

/-- The first 80 primes; sources of the SHA-512 constants. -/
def first80Primes : List Nat :=
  [2, 3, 5, 7, 11, 13, 17, 19, 23, 29, 31, 37, 41, 43, 47, 53, 59, 61, 67, 71,
   73, 79, 83, 89, 97, 101, 103, 107, 109, 113, 127, 131, 137, 139, 149, 151,
   157, 163, 167, 173, 179, 181, 191, 193, 197, 199, 211, 223, 227, 229, 233,
   239, 241, 251, 257, 263, 269, 271, 277, 281, 283, 293, 307, 311, 313, 317,
   331, 337, 347, 349, 353, 359, 367, 373, 379, 383, 389, 397, 401, 409]

/-- Bit-by-bit integer cube root: builds the largest `r` with `r ^ 3 ≤ n`
from the `fuel` highest candidate bits downwards. -/
def icbrtGo (n : Nat) : Nat → Nat → Nat
  | 0, r => r
  | i + 1, r =>
    let c := r + 2 ^ i
    icbrtGo n i (if c ^ 3 ≤ n then c else r)

/-- Integer cube root, adequate for all arguments below `2 ^ 210`. -/
def icbrt (n : Nat) : Nat := icbrtGo n 70 0

/-- First 64 bits of the fractional part of the square root of `p`
(the SHA-512 initial-state words, for the first 8 primes). -/
def fracSqrt64 (p : Nat) : Nat := Nat.sqrt (p * 2 ^ 128) % 2 ^ 64

/-- First 64 bits of the fractional part of the cube root of `p`
(the SHA-512 round constants, for the first 80 primes). -/
def fracCbrt64 (p : Nat) : Nat := icbrt (p * 2 ^ 192) % 2 ^ 64

/-- The 80 SHA-512 round constants K₀..K₇₉. -/
def kConstants : List Nat := first80Primes.map fracCbrt64

/-- The eight 64-bit working variables of SHA-512. -/
structure Sha512State where
  a : Nat
  b : Nat
  c : Nat
  d : Nat
  e : Nat
  f : Nat
  g : Nat
  hh : Nat
deriving DecidableEq

/-- The SHA-512 initial hash value. -/
def sha512Init : Sha512State :=
  { a := fracSqrt64 2, b := fracSqrt64 3, c := fracSqrt64 5, d := fracSqrt64 7,
    e := fracSqrt64 11, f := fracSqrt64 13, g := fracSqrt64 17, hh := fracSqrt64 19 }

/-- 64-bit rotate right. -/
def rotr64 (n x : Nat) : Nat := (x >>> n) ||| ((x % 2 ^ n) <<< (64 - n))

/-- SHA-512 choice function. -/
def ch64 (e f g : Nat) : Nat := (e &&& f) ^^^ ((e ^^^ (2 ^ 64 - 1)) &&& g)

/-- SHA-512 majority function. -/
def maj64 (a b c : Nat) : Nat := (a &&& b) ^^^ (a &&& c) ^^^ (b &&& c)

/-- SHA-512 Σ₀. -/
def bigSigma0 (x : Nat) : Nat := rotr64 28 x ^^^ rotr64 34 x ^^^ rotr64 39 x

/-- SHA-512 Σ₁. -/
def bigSigma1 (x : Nat) : Nat := rotr64 14 x ^^^ rotr64 18 x ^^^ rotr64 41 x

/-- SHA-512 σ₀. -/
def smallSigma0 (x : Nat) : Nat := rotr64 1 x ^^^ rotr64 8 x ^^^ (x >>> 7)

/-- SHA-512 σ₁. -/
def smallSigma1 (x : Nat) : Nat := rotr64 19 x ^^^ rotr64 61 x ^^^ (x >>> 6)

/-- Extends the 16 message words of a block by `n` scheduled words. -/
def buildW (w16 : List Nat) : Nat → List Nat
  | 0 => w16
  | n + 1 =>
    let w := buildW w16 n
    let t := w.length
    w ++ [(smallSigma1 (w.getD (t - 2) 0) + w.getD (t - 7) 0 +
           smallSigma0 (w.getD (t - 15) 0) + w.getD (t - 16) 0) % 2 ^ 64]

/-- One SHA-512 compression round. -/
def sha512Round (st : Sha512State) (kt wt : Nat) : Sha512State :=
  let t1 := (st.hh + bigSigma1 st.e + ch64 st.e st.f st.g + kt + wt) % 2 ^ 64
  let t2 := (bigSigma0 st.a + maj64 st.a st.b st.c) % 2 ^ 64
  { a := (t1 + t2) % 2 ^ 64, b := st.a, c := st.b, d := st.c,
    e := (st.d + t1) % 2 ^ 64, f := st.e, g := st.f, hh := st.g }

/-- SHA-512 compression of one 128-byte block into the chaining state. -/
def compressBlock (st : Sha512State) (block : List Nat) : Sha512State :=
  let w0 := (List.range 16).map (fun i => beBytesToNat ((block.drop (8 * i)).take 8))
  let w := buildW w0 64
  let fin := (kConstants.zip w).foldl (fun s kw => sha512Round s kw.1 kw.2) st
  { a := (st.a + fin.a) % 2 ^ 64, b := (st.b + fin.b) % 2 ^ 64,
    c := (st.c + fin.c) % 2 ^ 64, d := (st.d + fin.d) % 2 ^ 64,
    e := (st.e + fin.e) % 2 ^ 64, f := (st.f + fin.f) % 2 ^ 64,
    g := (st.g + fin.g) % 2 ^ 64, hh := (st.hh + fin.hh) % 2 ^ 64 }

/-- SHA-512 padding: a `0x80` byte, zeros, and the 128-bit big-endian bit
length, to a multiple of 128 bytes. -/
def sha512Pad (msg : List Nat) : List Nat :=
  let L := msg.length
  let zeros := (128 - (L + 17) % 128) % 128
  msg ++ [128] ++ List.replicate zeros 0 ++ natToBytesBE 16 (8 * L)

/-- Splits a byte sequence into consecutive 128-byte blocks. -/
def chunks128 (l : List Nat) : List (List Nat) :=
  if h : l = [] then []
  else
    have : (l.drop 128).length < l.length := by
      have : 0 < l.length := List.length_pos.mpr h
      simp only [List.length_drop]
      omega
    l.take 128 :: chunks128 (l.drop 128)
termination_by l.length

/-- SHA-512 of a byte sequence: the 64-byte digest. -/
def sha512 (msg : List Nat) : List Nat :=
  let st := (chunks128 (sha512Pad msg)).foldl compressBlock sha512Init
  word64ToBytesBE st.a ++ word64ToBytesBE st.b ++ word64ToBytesBE st.c ++
  word64ToBytesBE st.d ++ word64ToBytesBE st.e ++ word64ToBytesBE st.f ++
  word64ToBytesBE st.g ++ word64ToBytesBE st.hh

/-! ## HMAC-SHA512 (`hmac.new(key, msg, hashlib.sha512)`) and
PBKDF2 (`hashlib.pbkdf2_hmac("sha512", ...)`) -/

/-- HMAC-SHA512 with block size 128: keys longer than a block are hashed,
then zero-padded; `0x5c`/`0x36` are the outer/inner pad bytes. -/
def hmacSha512 (key msg : List Nat) : List Nat :=
  let k0 := if 128 < key.length then sha512 key else key
  let k := k0 ++ List.replicate (128 - k0.length) 0
  sha512 ((k.map (fun b => b ^^^ 92)) ++ sha512 ((k.map (fun b => b ^^^ 54)) ++ msg))

/-- Bytewise exclusive or. -/
def xorBytes (a b : List Nat) : List Nat := List.zipWith (· ^^^ ·) a b

/-- The U-chain of PBKDF2: `n` further HMAC iterations xor-accumulated
onto `acc`, starting from the previous value `u`. -/
def pbkdf2Loop (pw : List Nat) : Nat → List Nat → List Nat → List Nat
  | 0, _, acc => acc
  | n + 1, u, acc =>
    let u' := hmacSha512 pw u
    pbkdf2Loop pw n u' (xorBytes acc u')

/-- The PBKDF2 block function F(pw, salt, iters, i): the xor of the
`iters` values U₁, U₂, ... for block index `i`. -/
def pbkdf2F (pw salt : List Nat) (iters blockIdx : Nat) : List Nat :=
  let u1 := hmacSha512 pw (salt ++ natToBytesBE 4 blockIdx)
  pbkdf2Loop pw (iters - 1) u1 u1

/-- PBKDF2 with HMAC-SHA512 as pseudorandom function: concatenates as many
64-byte blocks as `dklen` needs and truncates to `dklen` bytes. -/
def pbkdf2HmacSha512 (pw salt : List Nat) (iters dklen : Nat) : List Nat :=
  let nblocks := (dklen + 63) / 64
  (((List.range nblocks).map (fun i => pbkdf2F pw salt iters (i + 1))).flatten).take dklen

/-! ## The `HDW` class state and error kinds -/

/-- The error kinds of section 7 of the specification.  The source raises
`ValueError` with distinguishing messages; the spec names them. -/
inductive HDError where
  | UnsupportedMnemonicLength
  | InvalidExtendedKeyLength
  | NotARootKey
  | MalformedSeed
deriving DecidableEq

/-- The tuple returned by `HDW._deserialize_xprivate_key`, in source order:
version, depth, parent fingerprint, child number, private key data, chain
code (the source's comments' names for the six slices). -/
structure XKeyParts where
  version : List Nat
  depthByte : List Nat
  fingerprint : List Nat
  childNumber : List Nat
  keyData : List Nat
  chainCode : List Nat
deriving DecidableEq

/-- The instance attributes of `HDW`.  Attributes that `__init__` does not
always set (`seed`, `master_private_key`, `master_chain_code`, `_mnemonic`)
are `Option`s, `none` meaning the attribute is absent. -/
structure HDWState where
  strength : Option Nat
  mnemonic : Option String
  depth : Nat
  index : Nat
  parentFingerprint : List Nat
  masterPrivateKey : Option (List Nat)
  masterChainCode : Option (List Nat)
  seed : Option (List Nat)
deriving DecidableEq

/-- The attribute values `HDW.__init__` assigns before looking at its
`seed` argument: `strength = None`, `_depth = 0`, `_index = 0`,
`_parent_fingerprint = b"\x00\x00\x00\x00"`. -/
def hdwDefault : HDWState :=
  { strength := none, mnemonic := none, depth := 0, index := 0,
    parentFingerprint := [0, 0, 0, 0], masterPrivateKey := none,
    masterChainCode := none, seed := none }

/-! ## The `HDW` methods -/

/-- The ASCII bytes of the literal `b"Bitcoin seed"`. -/
def bitcoinSeedKey : List Nat := utf8Encode "Bitcoin seed"

/-- `HDW.from_seed`: HMAC-SHA512 of the seed under key `b"Bitcoin seed"`,
split into `h[:32]` and `h[32:]`. -/
def fromSeed (seedBytes : List Nat) : List Nat × List Nat :=
  let h := hmacSha512 bitcoinSeedKey seedBytes
  (h.take 32, h.drop 32)

/-- `str.split(" ")` with an explicit single-space separator: cuts at every
space, keeping empty pieces, so the result has one more piece than the
string has spaces (and `"".split(" ") == [""]`). -/
def pySplitSpaceAux : List Char → List Char → List (List Char)
  | acc, [] => [acc.reverse]
  | acc, c :: rest =>
    if c = ' ' then acc.reverse :: pySplitSpaceAux [] rest
    else pySplitSpaceAux (c :: acc) rest

/-- The pieces of `s.split(" ")`. -/
def pySplitSpace (s : String) : List (List Char) := pySplitSpaceAux [] s.data

/-- `HDW.get_mnemonic_strength`: NFKD-normalize, split on single spaces,
and map the word count to a strength.  `unicodedata.normalize("NFKD", -)`
is external Unicode-table code and is passed in as `nfkd`. -/
def getMnemonicStrength (nfkd : String → String) (mnemonic : String) : Except HDError Nat :=
  let words := (pySplitSpace (nfkd mnemonic)).length
  if words = 12 then .ok 128
  else if words = 15 then .ok 160
  else if words = 18 then .ok 192
  else if words = 21 then .ok 224
  else if words = 24 then .ok 256
  else .error .UnsupportedMnemonicLength

/-- `HDW.to_seed`: PBKDF2-HMAC-SHA512 of the UTF-8 mnemonic with salt
`"mnemonic" + passphrase` (UTF-8), 2048 iterations, default derived-key
length (64 for SHA-512), truncated by `[:64]`. -/
def toSeed (mnemonic passphrase : String) : List Nat :=
  let pw := utf8Encode mnemonic
  let salt := utf8Encode ("mnemonic" ++ passphrase)
  (pbkdf2HmacSha512 pw salt 2048 64).take 64

/-- `HDW.from_mnemonic`: assigns `_mnemonic` to the NFKD-normalized
mnemonic, then `strength` (raising on a bad word count — note the source
normalizes the already-normalized `self._mnemonic` a second time inside
`get_mnemonic_strength`), then derives the master keys from the stretched
seed.  Returns the outcome with the post-state. -/
def fromMnemonic (nfkd : String → String) (st : HDWState) (mnemonic passphrase : String) :
    Except HDError Unit × HDWState :=
  let m := nfkd mnemonic
  let st1 := { st with mnemonic := some m }
  match getMnemonicStrength nfkd m with
  | .error e => (.error e, st1)
  | .ok strengthVal =>
    let seed := toSeed m passphrase
    let mk := fromSeed seed
    (.ok (), { st1 with
      strength := some strengthVal,
      masterPrivateKey := some mk.1,
      masterChainCode := some mk.2 })

/-- One hex digit's value, `none` for a non-hex character. -/
def hexVal (c : Char) : Option Nat :=
  if 48 ≤ c.toNat ∧ c.toNat ≤ 57 then some (c.toNat - 48)
  else if 97 ≤ c.toNat ∧ c.toNat ≤ 102 then some (c.toNat - 87)
  else if 65 ≤ c.toNat ∧ c.toNat ≤ 70 then some (c.toNat - 55)
  else none

/-- `binascii.unhexlify`: pairs of hex digits to bytes; odd length or a
non-hex digit fails (the spec's `MalformedSeed`). -/
def unhexlify : List Char → Except HDError (List Nat)
  | [] => .ok []
  | [_] => .error .MalformedSeed
  | c1 :: c2 :: rest =>
    match hexVal c1, hexVal c2, unhexlify rest with
    | some hi, some lo, .ok bs => .ok ((16 * hi + lo) :: bs)
    | _, _, _ => .error .MalformedSeed

/-- `HDW.__init__`: sets the default attributes, then, when a non-empty
seed string is given, hex-decodes it and derives the master keys. -/
def initHDW (seed : Option (List Char)) : Except HDError Unit × HDWState :=
  match seed with
  | none => (.ok (), hdwDefault)
  | some s =>
    if s = [] then (.ok (), hdwDefault)
    else
      match unhexlify s with
      | .error e => (.error e, hdwDefault)
      | .ok sb =>
        let mk := fromSeed sb
        (.ok (), { hdwDefault with
          seed := some sb,
          masterPrivateKey := some mk.1,
          masterChainCode := some mk.2 })

/-- `HDW._deserialize_xprivate_key`: hex-encode when `encoded`, demand
length 156, then slice `[:4]`, `[4:5]`, `[5:9]`, `[9:13]`, `[13:45]`,
`[46:]` of the (hex) text — the slice indices are raw-byte offsets applied
to the doubled-length hex string, and index 45 is skipped. -/
def deserializeXprivateKey (xprv : List Nat) (encoded : Bool) : Except HDError XKeyParts :=
  let decoded := if encoded then b2aHex xprv else xprv
  if decoded.length ≠ 156 then .error .InvalidExtendedKeyLength
  else .ok { version := decoded.take 4
           , depthByte := (decoded.drop 4).take 1
           , fingerprint := (decoded.drop 5).take 4
           , childNumber := (decoded.drop 9).take 4
           , keyData := (decoded.drop 13).take 32
           , chainCode := decoded.drop 46 }

/-- `HDW.from_xprivate_key`: deserializes (always with `encoded=True`),
rejects under `strict` when the first slice is not `b"\x04\x88\xAD\xE4"`,
then assigns `_depth`, `_parent_fingerprint`, `_index`,
`master_private_key = _parts[4][:32]` and `master_chain_code = _parts[4][32:]`
(the `_parts[5]` slice is never read).  The trailing
`ecdsa.SigningKey.from_string` cannot raise here (the 32 key bytes are
ASCII hex characters, a scalar in `[1, n)`) and is not modelled further.
Returns the outcome with the post-state. -/
def fromXprivateKey (st : HDWState) (xprv : List Nat) (strict : Bool) :
    Except HDError Unit × HDWState :=
  match deserializeXprivateKey xprv true with
  | .error e => (.error e, st)
  | .ok parts =>
    if strict = true ∧ parts.version ≠ [4, 136, 173, 228] then (.error .NotARootKey, st)
    else
      (.ok (), { st with
        depth := beBytesToNat parts.depthByte,
        parentFingerprint := parts.fingerprint,
        index := beBytesToNat parts.childNumber,
        masterPrivateKey := some (parts.keyData.take 32),
        masterChainCode := some (parts.keyData.drop 32) })

/-- Modelled from the spec: the repository has no extended-key serializer,
so this builds the declared layout of an extended private key — version
(4 bytes), depth (1), parent fingerprint (4), child index (4, big-endian),
33-byte payload of a leading zero byte plus the 32-byte private key, and
the 32-byte chain code. -/
def serializeXprv (version : List Nat) (depth : Nat) (fp : List Nat) (index : Nat)
    (privkey : List Nat) (chaincode : List Nat) : List Nat :=
  version ++ [depth] ++ fp ++ natToBytesBE 4 index ++ (0 :: privkey) ++ chaincode

/-- A canonical mainnet root extended private key: version `0x0488ADE4`,
depth 0, zero fingerprint, index 0, private key `0x01` times 32, chain
code `0x02` times 32. -/
def sampleRootXprv : List Nat :=
  serializeXprv [4, 136, 173, 228] 0 [0, 0, 0, 0] 0 (List.replicate 32 1) (List.replicate 32 2)

/-- The assertion of claim C1 at one input, positions read on the
hex-encoded text as written: version 0–3, depth 4, fingerprint 5–8, child
number 9–12, key payload 13–44, chain code 46–77 (32 characters). -/
def c1ClaimAt (input : List Nat) : Prop :=
  (b2aHex input).length = 156 →
    deserializeXprivateKey input true = .ok
      { version := (b2aHex input).take 4
      , depthByte := ((b2aHex input).drop 4).take 1
      , fingerprint := ((b2aHex input).drop 5).take 4
      , childNumber := ((b2aHex input).drop 9).take 4
      , keyData := ((b2aHex input).drop 13).take 32
      , chainCode := ((b2aHex input).drop 46).take 32 }

/-! ## Digest-length facts -/

/-- A SHA-512 digest is 64 bytes: eight 8-byte words. -/
theorem sha512_length (msg : List Nat) : (sha512 msg).length = 64 := by
  simp [sha512, word64ToBytesBE]

/-- An HMAC-SHA512 tag is a SHA-512 digest, hence 64 bytes. -/
theorem hmacSha512_length (key msg : List Nat) : (hmacSha512 key msg).length = 64 := by
  unfold hmacSha512
  exact sha512_length _

/-- The xor-accumulator of the PBKDF2 U-chain keeps its 64-byte length. -/
theorem pbkdf2Loop_length (pw : List Nat) (n : Nat) :
    ∀ u acc : List Nat, acc.length = 64 → (pbkdf2Loop pw n u acc).length = 64 := by
  induction n with
  | zero => intro u acc h; exact h
  | succ k ih =>
    intro u acc h
    unfold pbkdf2Loop
    exact ih _ _ (by simp [xorBytes, h, hmacSha512_length])

/-- Each PBKDF2 block is 64 bytes. -/
theorem pbkdf2F_length (pw salt : List Nat) (iters blockIdx : Nat) :
    (pbkdf2F pw salt iters blockIdx).length = 64 := by
  unfold pbkdf2F
  exact pbkdf2Loop_length pw _ _ _ (hmacSha512_length _ _)

/-- PBKDF2-HMAC-SHA512 asked for 64 bytes produces exactly 64 bytes. -/
theorem pbkdf2HmacSha512_64_length (pw salt : List Nat) (iters : Nat) :
    (pbkdf2HmacSha512 pw salt iters 64).length = 64 := by
  have h1 : ((64 : Nat) + 63) / 64 = 1 := by norm_num
  have h2 : List.range 1 = [0] := rfl
  unfold pbkdf2HmacSha512
  rw [h1]
  simp [h2, pbkdf2F_length]

/-! ## Claims C3 and C4: master-key derivation and seed stretching -/

/-- C3: for every seed byte sequence, `from_seed` returns the pair of the
first 32 and last 32 bytes of `H = HMAC-SHA512(b"Bitcoin seed", seed)`;
both components have length 32 and their concatenation is `H` bit-for-bit.
The statement is unconditional in the seed: no length validation occurs. -/
theorem c3_from_seed_spec (seed : List Nat) :
    fromSeed seed
        = ((hmacSha512 bitcoinSeedKey seed).take 32, (hmacSha512 bitcoinSeedKey seed).drop 32)
    ∧ (fromSeed seed).1.length = 32
    ∧ (fromSeed seed).2.length = 32
    ∧ (fromSeed seed).1 ++ (fromSeed seed).2 = hmacSha512 bitcoinSeedKey seed := by
  have hl := hmacSha512_length bitcoinSeedKey seed
  refine ⟨rfl, ?_, ?_, ?_⟩
  · simp [fromSeed, hl]
  · simp [fromSeed, hl]
  · simp [fromSeed]

/-- C4: for every mnemonic and passphrase, `to_seed` returns exactly the
first 64 bytes of PBKDF2 with HMAC-SHA512, password the UTF-8 mnemonic,
salt the UTF-8 bytes of the literal `"mnemonic"` concatenated with the
passphrase, and exactly 2048 iterations; the result always has length 64. -/
theorem c4_to_seed_spec (m p : String) :
    toSeed m p
        = (pbkdf2HmacSha512 (utf8Encode m) (utf8Encode ("mnemonic" ++ p)) 2048 64).take 64
    ∧ (toSeed m p).length = 64 := by
  refine ⟨rfl, ?_⟩
  simp [toSeed, pbkdf2HmacSha512_64_length]

/-! ## Claim C5: mnemonic strength classification -/

/-- C5: for every normalization function and mnemonic, the strength is 128,
160, 192, 224, 256 exactly when the normalized, space-split word count is
12, 15, 18, 21, 24 respectively, and every other word count yields the
`UnsupportedMnemonicLength` error.  The operation is a pure function of its
arguments: no wallet state appears in it. -/
theorem c5_mnemonic_strength_spec (nfkd : String → String) (m : String) :
    (getMnemonicStrength nfkd m = .ok 128 ↔ (pySplitSpace (nfkd m)).length = 12)
    ∧ (getMnemonicStrength nfkd m = .ok 160 ↔ (pySplitSpace (nfkd m)).length = 15)
    ∧ (getMnemonicStrength nfkd m = .ok 192 ↔ (pySplitSpace (nfkd m)).length = 18)
    ∧ (getMnemonicStrength nfkd m = .ok 224 ↔ (pySplitSpace (nfkd m)).length = 21)
    ∧ (getMnemonicStrength nfkd m = .ok 256 ↔ (pySplitSpace (nfkd m)).length = 24)
    ∧ (getMnemonicStrength nfkd m = .error .UnsupportedMnemonicLength ↔
        ¬((pySplitSpace (nfkd m)).length = 12 ∨ (pySplitSpace (nfkd m)).length = 15 ∨
          (pySplitSpace (nfkd m)).length = 18 ∨ (pySplitSpace (nfkd m)).length = 21 ∨
          (pySplitSpace (nfkd m)).length = 24)) := by
  unfold getMnemonicStrength
  dsimp only
  split_ifs with h1 h2 h3 h4 h5 <;> simp_all

/-! ## Claim C6: the length gate of deserialization -/

/-- Hex encoding doubles the length: two hex digits per byte. -/
theorem b2aHex_length (bs : List Nat) : (b2aHex bs).length = 2 * bs.length := by
  induction bs with
  | nil => rfl
  | cons b t ih =>
    simp only [b2aHex, List.map_cons, List.flatten_cons, List.length_append,
      List.length_cons, List.length_nil] at ih ⊢
    omega

/-- C6: whenever the decoded text (the hex encoding in encoded mode, the
raw input otherwise) does not have length exactly 156 — in particular for
the empty input and for inputs one short or one long — deserialization
fails with `InvalidExtendedKeyLength`, and the error is the only outcome,
so no field is extracted; when the length is exactly 156 the check passes
and a field tuple is returned. -/
theorem c6_length_gate (input : List Nat) (encoded : Bool) :
    ((if encoded then b2aHex input else input).length ≠ 156 →
      deserializeXprivateKey input encoded = .error .InvalidExtendedKeyLength)
    ∧ ((if encoded then b2aHex input else input).length = 156 →
      (deserializeXprivateKey input encoded).isOk = true) := by
  unfold deserializeXprivateKey
  constructor
  · intro h
    simp [h]
  · intro h
    simp only [h]
    rw [if_neg (by omega)]
    rfl

/-- C6 witness: the empty input, a one-short raw input (155 bytes) and a
one-long raw input (157 bytes) are rejected; a 78-byte input, whose hex
encoding has length 156, is accepted. -/
theorem c6_length_gate_witness :
    deserializeXprivateKey [] true = .error .InvalidExtendedKeyLength
    ∧ deserializeXprivateKey (List.replicate 155 0) false = .error .InvalidExtendedKeyLength
    ∧ deserializeXprivateKey (List.replicate 157 0) false = .error .InvalidExtendedKeyLength
    ∧ (deserializeXprivateKey (List.replicate 78 0) true).isOk = true :=
  ⟨(c6_length_gate [] true).1 (by simp [b2aHex]),
   (c6_length_gate (List.replicate 155 0) false).1 (by simp),
   (c6_length_gate (List.replicate 157 0) false).1 (by simp),
   (c6_length_gate (List.replicate 78 0) true).2 (by simp [b2aHex_length])⟩

/-! ## Claim C8: atomicity of `from_xprivate_key` on failure -/

/-- C8: whenever `from_xprivate_key` raises — invalid length or strict-mode
version mismatch, the only two error sites — the post-state equals the
pre-state: depth, index, parent fingerprint (and every other attribute) are
untouched, because both raises precede the first assignment. -/
theorem c8_atomic_on_error (st : HDWState) (xprv : List Nat) (strict : Bool) (e : HDError)
    (h : (fromXprivateKey st xprv strict).1 = .error e) :
    (fromXprivateKey st xprv strict).2 = st := by
  unfold fromXprivateKey at h ⊢
  rcases hd : deserializeXprivateKey xprv true with e' | parts <;> simp only [hd] at h ⊢
  by_cases hc : strict = true ∧ parts.version ≠ [4, 136, 173, 228]
  · simp [hc]
  · simp [hc] at h

/-- C8 witness: the empty input fails the length check and leaves the
freshly initialized state exactly as it was. -/
theorem c8_atomic_on_error_witness :
    (fromXprivateKey hdwDefault [] false).2 = hdwDefault :=
  c8_atomic_on_error hdwDefault [] false .InvalidExtendedKeyLength (by rfl)

/-! ## Claim C9: root state of seed and mnemonic derivation -/

/-- C9: a freshly constructed wallet has depth 0, index 0 and a four-zero-
byte parent fingerprint; constructing from a seed (empty, absent, valid or
malformed) and deriving from a mnemonic (successfully or not) leave all
three fields unchanged, so only `from_xprivate_key` ever assigns them. -/
theorem c9_root_state_frame :
    (hdwDefault.depth = 0 ∧ hdwDefault.index = 0 ∧ hdwDefault.parentFingerprint = [0, 0, 0, 0])
    ∧ (∀ seed : Option (List Char),
        (initHDW seed).2.depth = 0 ∧ (initHDW seed).2.index = 0 ∧
        (initHDW seed).2.parentFingerprint = [0, 0, 0, 0])
    ∧ (∀ (nfkd : String → String) (st : HDWState) (m p : String),
        (fromMnemonic nfkd st m p).2.depth = st.depth ∧
        (fromMnemonic nfkd st m p).2.index = st.index ∧
        (fromMnemonic nfkd st m p).2.parentFingerprint = st.parentFingerprint) := by
  refine ⟨⟨rfl, rfl, rfl⟩, ?_, ?_⟩
  · intro seed
    rcases seed with _ | s
    · exact ⟨rfl, rfl, rfl⟩
    · by_cases he : s = []
      · simp [initHDW, he, hdwDefault]
      · rcases hu : unhexlify s with e | sb <;>
          simp [initHDW, he, hu, hdwDefault]
  · intro nfkd st m p
    unfold fromMnemonic
    rcases hg : getMnemonicStrength nfkd (nfkd m) with e | v <;> simp [hg]

/-! ## Claim C1: the deserialization slice offsets -/

/-- C1 counterexample: at the all-zero 78-byte input (hex-encoded length
exactly 156) the tuple actually returned differs from the claimed one —
the returned chain code is the whole 110-character tail from position 46
of the hex text, not the 32 characters at positions 46–77, and the other
slices sit at the literal (not doubled) offsets. -/
theorem c1_counterexample : ¬ c1ClaimAt (List.replicate 78 0) := by
  unfold c1ClaimAt
  decide

/-- C1 (amended): for every input accepted by deserialization (hex-encoded
length exactly 156), `_deserialize_xprivate_key` slices the hex-encoded
text at the literal offsets written in the source — they are not doubled
relative to raw byte positions: version from positions 0–3, depth from
position 4, parent fingerprint from positions 5–8, child number from
positions 9–12 (interpreted big-endian by `from_xprivate_key`), key
payload from positions 13–44 (32 characters), and chain code from
position 46 to the end (110 characters, not 32), with the single
position 45 skipped and in neither field. -/
theorem c1_amended_slices (input : List Nat) (h : (b2aHex input).length = 156) :
    deserializeXprivateKey input true = .ok
      { version := (b2aHex input).take 4
      , depthByte := ((b2aHex input).drop 4).take 1
      , fingerprint := ((b2aHex input).drop 5).take 4
      , childNumber := ((b2aHex input).drop 9).take 4
      , keyData := ((b2aHex input).drop 13).take 32
      , chainCode := (b2aHex input).drop 46 }
    ∧ (((b2aHex input).drop 13).take 32).length = 32
    ∧ ((b2aHex input).drop 46).length = 110
    ∧ (∀ st : HDWState, (fromXprivateKey st input false).2.index
        = beBytesToNat (((b2aHex input).drop 9).take 4)) := by
  have hde : deserializeXprivateKey input true = .ok
      { version := (b2aHex input).take 4
      , depthByte := ((b2aHex input).drop 4).take 1
      , fingerprint := ((b2aHex input).drop 5).take 4
      , childNumber := ((b2aHex input).drop 9).take 4
      , keyData := ((b2aHex input).drop 13).take 32
      , chainCode := (b2aHex input).drop 46 } := by
    simp [deserializeXprivateKey, h]
  refine ⟨hde, ?_, ?_, ?_⟩
  · simp [List.length_take, List.length_drop, h]
  · simp [List.length_drop, h]
  · intro st
    unfold fromXprivateKey
    rw [hde]
    simp

/-- C1 witness: the all-zero 78-byte input satisfies the length hypothesis,
and its extracted chain code indeed has 110 characters. -/
theorem c1_amended_slices_witness :
    (b2aHex (List.replicate 78 0)).length = 156
    ∧ ((b2aHex (List.replicate 78 0)).drop 46).length = 110 :=
  ⟨by simp [b2aHex_length],
   (c1_amended_slices (List.replicate 78 0) (by simp [b2aHex_length])).2.2.1⟩

/-! ## Claims C2, C7, C10: what `from_xprivate_key` actually stores -/

/-- C2 fails on the code: deserializing `sampleRootXprv` — which encodes
version `0x0488ADE4`, depth 0, parent fingerprint `00 00 00 00`, child
index 0, private key `0x01 × 32` and chain code `0x02 × 32` — succeeds in
non-strict mode but stores depth 97 (the ASCII code of the hex character
at position 4, not the encoded depth 0), index 808464432 (four ASCII
characters read as a big-endian word, not 0), a parent fingerprint of
ASCII codes of hex characters 5–8, an empty chain code, and a private key
of hex characters instead of the encoded key bytes. -/
theorem c2_roundtrip_failure_eval :
    (fromXprivateKey hdwDefault sampleRootXprv false).1 = .ok ()
    ∧ (fromXprivateKey hdwDefault sampleRootXprv false).2.depth = 97
    ∧ (fromXprivateKey hdwDefault sampleRootXprv false).2.index = 808464432
    ∧ (fromXprivateKey hdwDefault sampleRootXprv false).2.parentFingerprint = [100, 101, 52, 48]
    ∧ (fromXprivateKey hdwDefault sampleRootXprv false).2.masterChainCode = some []
    ∧ (fromXprivateKey hdwDefault sampleRootXprv false).2.masterPrivateKey
        ≠ some (List.replicate 32 1) := by
  decide

/-- C7 fails on the code: strict mode rejects even the canonical
private-mainnet root key, because the compared slice holds the first four
hex characters of the encoding (ASCII codes 48, 52, 56, 56 for "0488"),
which can never equal the raw marker bytes `[4, 136, 173, 228]`. -/
theorem c7_strict_rejects_canonical_root :
    fromXprivateKey hdwDefault sampleRootXprv true = (.error .NotARootKey, hdwDefault) := by
  decide

/-- C10 fails on the code for the import path: seed derivation always
stores a 32-byte chain code (the second half of the 64-byte HMAC), but a
successful `from_xprivate_key` stores `_parts[4][32:]`, the tail past the
end of the 32-character slice `_parts[4]` — always empty, never the
32-byte chain-code field (the `_parts[5]` slice is computed and dropped). -/
theorem c10_chaincode_length_eval :
    (∀ seed : List Nat, ((fromSeed seed).2).length = 32)
    ∧ (fromXprivateKey hdwDefault sampleRootXprv false).1 = .ok ()
    ∧ (fromXprivateKey hdwDefault sampleRootXprv false).2.masterChainCode = some [] := by
  refine ⟨?_, by decide, by decide⟩
  intro seed
  have hl := hmacSha512_length bitcoinSeedKey seed
  simp [fromSeed, hl]
